import Mathlib

/-!
Shallow embedding of `scilab_kernel.py` (class `ScilabKernel`): a notebook
kernel adapter around an external Scilab session.  Python strings are
modelled as `String` (lists of characters), the engine and the filesystem as
explicit oracles, and side effects (stream messages, engine calls, file
writes) as an explicit event trace returned next to each handler's reply.
-/

/-- Python whitespace characters, as used by `str.strip`, `str.split`. -/
def isPySpace (c : Char) : Bool :=
  c = ' ' || c = '\t' || c = '\n' || c = '\r' || c = '\x0b' || c = '\x0c'

/-- Python `str.strip()` on the underlying character list. -/
def pystripL (l : List Char) : List Char :=
  ((l.dropWhile isPySpace).reverse.dropWhile isPySpace).reverse

/-- Python `str.strip()`. -/
def pystrip (s : String) : String := ⟨pystripL s.data⟩

/-- Python `str.lstrip()`. -/
def pylstrip (s : String) : String := ⟨s.data.dropWhile isPySpace⟩

/-- Python `s.startswith(p)`. -/
def py_startswith (p s : String) : Bool := p.data.isPrefixOf s.data

/-- Python `s.endswith(p)`. -/
def py_endswith (p s : String) : Bool := p.data.isSuffixOf s.data

/-- Python `s.replace(a, b)` for single characters `a`, `b`. -/
def py_replace_char (a b : Char) (s : String) : String :=
  ⟨s.data.map (fun c => if c = a then b else c)⟩

/-- Python `s.replace(a, '')` for a single character `a`. -/
def py_remove_char (a : Char) (s : String) : String :=
  ⟨s.data.filter (fun c => c != a)⟩

/-- Python `str.split()`: split on whitespace runs, dropping empty fields. -/
def py_split_ws_L : List Char → List (List Char)
  | [] => []
  | c :: rest =>
    if isPySpace c then py_split_ws_L rest
    else (c :: rest.takeWhile (fun d => !isPySpace d)) ::
         py_split_ws_L (rest.dropWhile (fun d => !isPySpace d))
termination_by l => l.length
decreasing_by
  · simp
  · exact Nat.lt_succ_of_le (List.dropWhile_sublist _).length_le

/-- Python `str.split()` at the `String` level. -/
def py_split_ws (s : String) : List String :=
  (py_split_ws_L s.data).map (fun l => ⟨l⟩)

/-- Index of the first occurrence of `m` inside `l` (Python `s.find(m)`
when the result is non-negative). -/
def findSubIdx (m : List Char) : List Char → Option Nat
  | [] => if m = [] then some 0 else none
  | c :: rest =>
    if m.isPrefixOf (c :: rest) then some 0
    else (findSubIdx m rest).map (· + 1)

/-- Python `m in s` (substring containment). -/
def py_contains (m s : String) : Bool := (findSubIdx m.data s.data).isSome

/-- Python `s.index(m)`; defaults to 0, only used under a containment guard. -/
def py_index (m s : String) : Nat := (findSubIdx m.data s.data).getD 0

/-- Python `s[:n]`. -/
def py_take (n : Nat) (s : String) : String := ⟨s.data.take n⟩

/-- Python `l[-k:]` for `k > 0`: the last `k` elements (all of them when the
list is shorter). -/
def py_last_slice (k : Nat) (l : List α) : List α := l.drop (l.length - k)

/-- Character data of Python `'\n'.join(ls)`. -/
def py_join_nl_L : List String → List Char
  | [] => []
  | [a] => a.data
  | a :: b :: rest => a.data ++ '\n' :: py_join_nl_L (b :: rest)

/-- Python `'\n'.join(ls)`. -/
def py_join_nl (ls : List String) : String := ⟨py_join_nl_L ls⟩

/-- Python file `readlines()`: split after every newline, keeping the
newline character at the end of each line; a final fragment without a
newline is kept as-is; the empty file yields no lines. -/
def readlinesL : List Char → List (List Char)
  | [] => []
  | c :: cs =>
    if c = '\n' then ['\n'] :: readlinesL cs
    else
      match readlinesL cs with
      | [] => [[c]]
      | first :: rest => (c :: first) :: rest

/-- `readlines` at the `String` level. -/
def readlines (s : String) : List String := (readlinesL s.data).map (fun l => ⟨l⟩)

/-- Remove one trailing newline terminator, when present. -/
def strip_trailing_nl (s : String) : String :=
  if s.data.getLast? = some '\n' then ⟨s.data.dropLast⟩ else s

/-- Python regex `\w` on ASCII strings: letters, digits, underscore. -/
def isWordChar (c : Char) : Bool := c.isAlphanum || c = '_'

/-- Character data of the placeholder variable name used for `_`. -/
def last_kernel_value_L : List Char := "last_kernel_value".data

/-- The scan of `re.sub('\W_\W|\W_\Z|\A_\W|\A_\Z', fill_value, code)` from
`do_execute`, where `fill_value` rewrites `'_'` to `last_kernel_value`
inside the matched text (the surrounding non-word characters are kept).
The Boolean flag states that the current position is preceded by a fresh
delimiter: the start of the string (`\A`) or a non-word character (`\W`)
that no earlier match consumed.  An `_` at such a position whose follower
is absent (`\Z`) or a non-word character is a match; the following
non-word character, when present, is consumed by the match and therefore
cannot delimit the next `_` (so in `_,_` only the first `_` is replaced,
exactly as in Python's non-overlapping left-to-right scan). -/
def fillUnd : Bool → List Char → List Char
  | _, [] => []
  | delim, c :: rest =>
    if c = '_' ∧ delim ∧ ((rest.head?.map isWordChar).getD false) = false then
      match rest with
      | [] => last_kernel_value_L
      | b :: rest2 => last_kernel_value_L ++ b :: fillUnd false rest2
    else c :: fillUnd (!isWordChar c) rest

/-- The `'_' in code` guard plus the `re.sub` call of `do_execute`. -/
def underscore_subst (code : String) : String :=
  if code.data.contains '_' then ⟨fillUnd true code.data⟩ else code

/-- One observable side effect of a handler call: a message on the iopub
stream channel, an engine interaction, or a history-file write. -/
inductive Event where
  | evalReq (code : String)
  | stream (data : String)
  | putVar (name value : String)
  | shutdownCall (restart : Bool)
  | engineRestart
  | engineClose
  | fileWrite (content : String)
  | sigint
  | helpOpen (token : String)
deriving DecidableEq, Repr

/-- Outcome of the engine call `scilab_wrapper._eval([code])`: a normal
result (`None` or a string), a keyboard interrupt, a structured
`Scilab2PyError`, or any other exception. -/
inductive EvalOutcome where
  | success (output : Option String)
  | keyboardInterrupt
  | scilabError (msg : String)
  | otherError
deriving DecidableEq, Repr

/-- Reply envelope of `do_execute`; `ok` carries the always-empty payload
and user-expression maps of the source. -/
inductive ExecuteReply where
  | ok (execution_count : Nat) (payload : List String)
      (user_expressions : List (String × String))
  | abort (execution_count : Nat)
  | err (execution_count : Nat) (ename evalue : String) (traceback : List String)
deriving DecidableEq, Repr

/-- Reply of `do_shutdown`. -/
structure ShutdownReply where
  status : String
  restart : Bool
deriving DecidableEq, Repr

/-- Reply of `do_complete`; `metadata` is the always-empty dict.  The
source's field name `matches` is a reserved word in Lean, hence
`matches_list`. -/
structure CompleteReply where
  matches_list : List String
  cursor_start : Nat
  cursor_end : Nat
  metadata : List (String × String)
  status : String
deriving DecidableEq, Repr

/-- Reply of `do_history`: a list of `(session, line_number, text)` triples
whose first two components are always `None` in the source. -/
structure HistoryReply where
  history : List (Option Nat × Option Nat × String)
deriving DecidableEq, Repr

/-- Kernel-side mutable state: the execution counter, the in-memory history
cache, the history file (`none` when no profile was found; otherwise the
file's contents, `none` while the file does not exist yet), and whether the
engine session is alive. -/
structure KernelState where
  execution_count : Nat
  hist_cache : List String
  hist_file : Option (Option String)
  session_alive : Bool
deriving DecidableEq, Repr

/-- `self.max_hist_cache`. -/
def max_hist_cache : Nat := 1000

/-- Filesystem oracle for the path branch of `do_complete`. -/
structure FsOracle where
  path_exists : String → Bool
  listdir : String → List String

/-- `posixpath.split`: break a path at the final path separator; the head
keeps no trailing separators unless it is all separators. -/
def py_split_path (s : String) : String × String :=
  let l := s.data
  let k := (l.reverse.takeWhile (fun c => c != '/')).length
  let i := if l.contains '/' then l.length - k else 0
  let head := l.take i
  let tail := l.drop i
  let head :=
    if head ≠ [] ∧ head.any (fun c => c != '/') then
      (head.reverse.dropWhile (fun c => c = '/')).reverse
    else head
  (⟨head⟩, ⟨tail⟩)

/-- `os.path.dirname`. -/
def py_dirname (s : String) : String := (py_split_path s).1

/-- `os.path.basename`. -/
def py_basename (s : String) : String := (py_split_path s).2

/-- `ScilabKernel._handle_error`'s classification of a raw engine error
string into the canonical message placed in the reply's `evalue` field. -/
def classify_error (err : String) : String :=
  if py_contains "parse error:" err then "Parse Error"
  else if py_contains "Scilab returned:" err then
    let e1 : String := ⟨err.data.drop (py_index "Scilab returned:" err)⟩
    ⟨(e1.data.drop ("Scilab returned:" : String).length).dropWhile isPySpace⟩
  else if py_contains "Syntax Error" err then "Syntax Error"
  else err

/-- `ScilabKernel._handle_error`: classify, stream the stripped canonical
message, and build the error reply (empty `ename`, empty traceback). -/
def handle_error (execution_count : Nat) (err : String) :
    ExecuteReply × List Event :=
  let e := classify_error err
  (ExecuteReply.err execution_count "" e [], [Event.stream (pystrip e)])

/-- `ScilabKernel._handle_output`: `None` becomes the empty string;
otherwise the engine-side placeholder `last_kernel_value` is updated before
the text is streamed; the stream message is suppressed in silent mode.
Returns the textual output together with the emitted events. -/
def handle_output (output : Option String) (silent : Bool) :
    String × List Event :=
  match output with
  | none => ("", if silent then [] else [Event.stream ""])
  | some v =>
    (v, Event.putVar "last_kernel_value" v ::
        (if silent then [] else [Event.stream v]))

/-- `ScilabKernel._get_help`: strip the `?` characters, take the last
whitespace/semicolon-delimited token, and when the engine says that name
exists, open the help browser and stream a notice. -/
def get_help_events (exists_code : String → Nat) (code : String) :
    List Event :=
  let code := py_remove_char '?' code
  let tokens := py_split_ws (py_replace_char ';' ' ' code)
  match tokens.getLast? with
  | none => []
  | some token =>
    if exists_code token != 0 then
      [Event.helpOpen token,
       Event.stream ("Calling Help Browser for `" ++ token ++ "`")]
    else []

/-- `ScilabKernel.do_shutdown`: restart or close the engine session, then
persist the most recent `max_hist_cache` history entries (newline-joined)
when a history file is configured. -/
def do_shutdown (restart : Bool) (st : KernelState) :
    ShutdownReply × KernelState × List Event :=
  let engineEv := if restart then Event.engineRestart else Event.engineClose
  match st.hist_file with
  | some _ =>
    let content := py_join_nl (py_last_slice max_hist_cache st.hist_cache)
    (⟨"ok", restart⟩,
     { st with session_alive := restart, hist_file := some (some content) },
     [Event.shutdownCall restart, engineEv, Event.fileWrite content])
  | none =>
    (⟨"ok", restart⟩, { st with session_alive := restart },
     [Event.shutdownCall restart, engineEv])

/-- `ScilabKernel.do_execute`.  The engine's behaviour for the single
`_eval` call is supplied as the `outcome` oracle; `exists_code` is the
engine's `exists` primitive used by the help branch. -/
def do_execute (outcome : EvalOutcome) (exists_code : String → Nat)
    (code0 : String) (silent store_history : Bool) (st : KernelState) :
    ExecuteReply × KernelState × List Event :=
  let code := pystrip code0
  let st :=
    if code ≠ "" ∧ store_history then
      { st with hist_cache := st.hist_cache ++ [code] }
    else st
  if code = "" ∨ code = "keyboard" ∨ py_startswith "keyboard(" code then
    (ExecuteReply.ok st.execution_count [] [], st, [])
  else if code = "exit" ∨ py_startswith "exit(" code ∨
      code = "quit" ∨ py_startswith "quit(" code then
    let s := do_shutdown false st
    (ExecuteReply.abort st.execution_count, s.2.1, s.2.2)
  else if code = "restart" ∨ py_startswith "restart(" code then
    (ExecuteReply.abort st.execution_count,
     { st with session_alive := true }, [Event.engineRestart])
  else if py_endswith "?" code ∨ py_startswith "?" code then
    (ExecuteReply.abort st.execution_count, st,
     get_help_events exists_code code)
  else
    let code := underscore_subst code
    match outcome with
    | EvalOutcome.keyboardInterrupt =>
      (ExecuteReply.abort st.execution_count, st,
       [Event.evalReq code, Event.sigint])
    | EvalOutcome.scilabError e =>
      let r := handle_error st.execution_count e
      (r.1, st, Event.evalReq code :: r.2)
    | EvalOutcome.otherError =>
      (ExecuteReply.ok st.execution_count [] [],
       { st with session_alive := true },
       [Event.evalReq code, Event.engineRestart])
    | EvalOutcome.success out =>
      let r := handle_output out silent
      if r.1 = "Scilab Session Interrupted" then
        (ExecuteReply.abort st.execution_count, st,
         Event.evalReq code :: r.2)
      else
        (ExecuteReply.ok st.execution_count [] [], st,
         Event.evalReq code :: r.2)

/-- `ScilabKernel.do_complete`.  `eng` is the engine's evaluation of the
`completion("tok")` query; `wrapper_dir` is `dir(self.scilab_wrapper)`.
`none` models the `IndexError` raised by `code[-1]` on an empty prefix. -/
def do_complete (eng : String → Option String) (fs : FsOracle)
    (wrapper_dir : List String) (code0 : String) (cursor_pos : Nat) :
    Option CompleteReply :=
  let code := py_take cursor_pos code0
  let dflt : CompleteReply :=
    { matches_list := [], cursor_start := 0, cursor_end := cursor_pos,
      metadata := [], status := "ok" }
  match code.data.getLast? with
  | none => none
  | some lastc =>
    if lastc = ' ' then some dflt
    else
      let tokens := py_split_ws (py_replace_char ';' ' ' code)
      match tokens.getLast? with
      | none => some dflt
      | some token =>
        if token.data.contains '/' then
          let dname := py_dirname token
          let rest := py_basename token
          if fs.path_exists dname then
            let files := fs.listdir dname
            let ms := files.filter (fun f => py_startswith rest f)
            some { matches_list := ms, cursor_start := cursor_pos - rest.length,
                   cursor_end := cursor_pos, metadata := [], status := "ok" }
          else some dflt
        else
          let start := cursor_pos - token.length
          match eng ("completion(\"" ++ token ++ "\")") with
          | none => some dflt
          | some out =>
            if out = "" then some dflt
            else
              let ms := py_split_ws (py_replace_char '!' ' ' out)
              let ms := wrapper_dir.foldl
                (fun acc it =>
                  if py_startswith token it ∧ ¬ acc.contains it then
                    acc ++ [it]
                  else acc) ms
              some { matches_list := ms, cursor_start := start,
                     cursor_end := cursor_pos, metadata := [], status := "ok" }

/-- `ScilabKernel.do_history`: read the history file (creating it empty
when missing), cap at `max_hist_cache` lines, replace the in-memory cache
with those lines, and return them as `(None, None, line)` triples. -/
def do_history (st : KernelState) : HistoryReply × KernelState :=
  match st.hist_file with
  | none => (⟨[]⟩, st)
  | some fileContent =>
    let content := match fileContent with | none => "" | some c => c
    let history := (readlines content).take max_hist_cache
    ({ history := history.map (fun h => ((none : Option Nat), (none : Option Nat), h)) },
     { st with hist_cache := history, hist_file := some (some content) })

/-- Kernel state right after `__init__` with a profile directory found:
empty cache, configured but not yet existing history file. -/
def init_state : KernelState :=
  { execution_count := 0, hist_cache := [], hist_file := some none,
    session_alive := true }

/-- Project the `do_shutdown` invocation events (with their restart flag)
out of a trace. -/
def shutdown_flag : Event → Option Bool
  | Event.shutdownCall b => some b
  | _ => none

/-- The trimmed code reaches the engine-evaluation branch of `do_execute`:
it matches none of the empty/keyboard/exit/quit/restart/help forms. -/
def reaches_eval (t : String) : Bool :=
  t ≠ "" ∧ t ≠ "keyboard" ∧ ¬ py_startswith "keyboard(" t ∧
  t ≠ "exit" ∧ ¬ py_startswith "exit(" t ∧
  t ≠ "quit" ∧ ¬ py_startswith "quit(" t ∧
  t ≠ "restart" ∧ ¬ py_startswith "restart(" t ∧
  ¬ py_endswith "?" t ∧ ¬ py_startswith "?" t

/-- Fold a sequence of `do_execute` calls (fixed engine oracle, history
recording on), keeping only the kernel state. -/
def run_execs (outcome : EvalOutcome) (exists_code : String → Nat)
    (silent : Bool) (codes : List String) (st : KernelState) : KernelState :=
  codes.foldl (fun s c => (do_execute outcome exists_code c silent true s).2.1) st

/-- No standalone `_` token: every underscore in the list has a word
character immediately before or after it (so the word-boundary regex of
`do_execute` can never fire).  The flag carries whether the previous
character was a word character (`false` at the start of the string). -/
def noLoneUnd : Bool → List Char → Bool
  | _, [] => true
  | prevW, c :: rest =>
    if c = '_' then
      (prevW || ((rest.head?.map isWordChar).getD false)) && noLoneUnd true rest
    else noLoneUnd (isWordChar c) rest

/-! ### Basic lemmas about the Python string helpers -/

theorem dropWhile_isPySpace_eq_nil {l : List Char}
    (h : ∀ c ∈ l, isPySpace c = true) : l.dropWhile isPySpace = [] := by
  induction l with
  | nil => rfl
  | cons c rest ih =>
    rw [List.dropWhile_cons, if_pos (h c (List.mem_cons_self c rest))]
    exact ih (fun d hd => h d (List.mem_cons_of_mem c hd))

theorem pystrip_eq_empty {s : String} (h : s.data.all isPySpace = true) :
    pystrip s = "" := by
  rw [List.all_eq_true] at h
  unfold pystrip pystripL
  rw [dropWhile_isPySpace_eq_nil h]
  rfl

theorem prefix_head_eq {l la lb : List Char} {a b : Char}
    (ha : (a :: la).isPrefixOf l = true) (hb : (b :: lb).isPrefixOf l = true) :
    a = b := by
  rw [List.isPrefixOf_iff_prefix] at ha hb
  obtain ⟨t1, h1⟩ := ha
  obtain ⟨t2, h2⟩ := hb
  rw [← h1] at h2
  exact (List.cons.injEq _ _ _ _ ▸ h2).1.symm

theorem py_startswith_ne {p q s : String} (hp : py_startswith p s = true)
    (hq : py_startswith q s = true) (a b : Char) (ha : p.data.head? = some a)
    (hb : q.data.head? = some b) (hab : a ≠ b) : False := by
  unfold py_startswith at hp hq
  cases hdp : p.data with
  | nil => rw [hdp] at ha; exact absurd ha (by simp)
  | cons x xs =>
    cases hdq : q.data with
    | nil => rw [hdq] at hb; exact absurd hb (by simp)
    | cons y ys =>
      rw [hdp] at hp ha
      rw [hdq] at hq hb
      simp only [List.head?_cons, Option.some.injEq] at ha hb
      exact hab (ha ▸ hb ▸ prefix_head_eq hp hq)

/-! ### History-cache behaviour of the handlers -/

theorem do_shutdown_hist_cache (restart : Bool) (st : KernelState) :
    (do_shutdown restart st).2.1.hist_cache = st.hist_cache := by
  cases h : st.hist_file <;> simp [do_shutdown, h]

theorem do_shutdown_hist_file_isSome (restart : Bool) (st : KernelState) :
    (do_shutdown restart st).2.1.hist_file.isSome = st.hist_file.isSome := by
  cases h : st.hist_file <;> simp [do_shutdown, h]

theorem do_execute_hist_cache (outcome : EvalOutcome)
    (exists_code : String → Nat) (code : String) (silent : Bool)
    (st : KernelState) (h : pystrip code ≠ "") :
    (do_execute outcome exists_code code silent true st).2.1.hist_cache =
      st.hist_cache ++ [pystrip code] := by
  unfold do_execute
  simp only [h, ne_eq, not_false_eq_true, true_and, if_true]
  repeat' split
  all_goals first | rfl | rw [do_shutdown_hist_cache]

theorem do_execute_hist_file_isSome (outcome : EvalOutcome)
    (exists_code : String → Nat) (code : String) (silent store : Bool)
    (st : KernelState) :
    (do_execute outcome exists_code code silent store st).2.1.hist_file.isSome =
      st.hist_file.isSome := by
  simp only [do_execute]
  repeat' split
  all_goals first | rfl | rw [do_shutdown_hist_file_isSome]

theorem run_execs_hist_cache (outcome : EvalOutcome)
    (exists_code : String → Nat) (silent : Bool) :
    ∀ (codes : List String) (st : KernelState),
      (∀ c ∈ codes, pystrip c ≠ "") →
      (run_execs outcome exists_code silent codes st).hist_cache =
        st.hist_cache ++ codes.map pystrip := by
  intro codes
  induction codes with
  | nil => intro st _; simp [run_execs]
  | cons c cs ih =>
    intro st h
    have h1 : pystrip c ≠ "" := h c (List.mem_cons_self c cs)
    have h2 : ∀ x ∈ cs, pystrip x ≠ "" :=
      fun x hx => h x (List.mem_cons_of_mem c hx)
    show (run_execs outcome exists_code silent cs _).hist_cache = _
    rw [ih _ h2, do_execute_hist_cache _ _ _ _ _ h1]
    simp

theorem run_execs_hist_file_isSome (outcome : EvalOutcome)
    (exists_code : String → Nat) (silent : Bool) :
    ∀ (codes : List String) (st : KernelState),
      (run_execs outcome exists_code silent codes st).hist_file.isSome =
        st.hist_file.isSome := by
  intro codes
  induction codes with
  | nil => intro st; rfl
  | cons c cs ih =>
    intro st
    show (run_execs outcome exists_code silent cs _).hist_file.isSome = _
    rw [ih, do_execute_hist_file_isSome]

theorem do_shutdown_filterMap_flag (restart : Bool) (st : KernelState) :
    (do_shutdown restart st).2.2.filterMap shutdown_flag = [restart] := by
  cases restart <;> cases h : st.hist_file <;>
    simp [do_shutdown, h, shutdown_flag]

theorem do_shutdown_session (restart : Bool) (st : KernelState) :
    (do_shutdown restart st).2.1.session_alive = restart := by
  cases h : st.hist_file <;> simp [do_shutdown, h]

/-- Trivial engine-completion oracle used in concrete runs. -/
def eng0 : String → Option String := fun _ => none

/-- Trivial filesystem oracle used in concrete runs. -/
def fs0 : FsOracle := ⟨fun _ => false, fun _ => []⟩

/-- C5: for every input consisting only of whitespace characters,
`do_execute` returns status ok with the execution counter it entered with,
leaves the state (in particular the history cache) untouched regardless of
`store_history`, and performs no side effect. -/
theorem C5_whitespace_ok (outcome : EvalOutcome) (exists_code : String → Nat)
    (code : String) (silent store_history : Bool) (st : KernelState)
    (h : code.data.all isPySpace = true) :
    do_execute outcome exists_code code silent store_history st =
      (ExecuteReply.ok st.execution_count [] [], st, []) := by
  have h0 : pystrip code = "" := pystrip_eq_empty h
  simp [do_execute, h0]

/-- C5 witness: the concrete whitespace input `" \t\n"`. -/
theorem C5_whitespace_ok_witness :
    do_execute (EvalOutcome.success none) (fun _ => 0) (" \t\n") false true init_state =
      (ExecuteReply.ok 0 [] [], init_state, []) :=
  C5_whitespace_ok _ _ _ _ _ _ (by decide)

/-- C10: when the text before the cursor is empty, `do_complete` fails with
the out-of-range index error of `code[-1]` (modelled as `none`) instead of
returning the default reply. -/
theorem C10_empty_prefix_error (eng : String → Option String) (fs : FsOracle)
    (wrapper_dir : List String) (code : String) (cursor_pos : Nat)
    (h : code.data.take cursor_pos = []) :
    do_complete eng fs wrapper_dir code cursor_pos = none := by
  simp [do_complete, py_take, h]

/-- C10 witness: completing at cursor position 0 of `"abc"`. -/
theorem C10_empty_prefix_error_witness :
    do_complete eng0 fs0 [] "abc" 0 = none :=
  C10_empty_prefix_error _ _ _ _ _ (by decide)

/-- C2 (amended): when the character immediately before the cursor is a
space, `do_complete` returns the default reply: empty match list,
`cursor_end` equal to the original cursor position — but `cursor_start`
equal to 0, not to the cursor position. -/
theorem C2_trailing_space (eng : String → Option String) (fs : FsOracle)
    (wrapper_dir : List String) (code : String) (cursor_pos : Nat)
    (h : (code.data.take cursor_pos).getLast? = some ' ') :
    do_complete eng fs wrapper_dir code cursor_pos =
      some { matches_list := [], cursor_start := 0, cursor_end := cursor_pos,
             metadata := [], status := "ok" } := by
  simp [do_complete, py_take, h]

/-- C2 witness: completing `"a "` at cursor position 2. -/
theorem C2_trailing_space_witness :
    do_complete eng0 fs0 [] "a " 2 =
      some { matches_list := [], cursor_start := 0, cursor_end := 2,
             metadata := [], status := "ok" } :=
  C2_trailing_space _ _ _ _ _ (by decide)

/-- C2 counterexample to the claim as stated: for `"a "` with cursor 2 the
reply's `cursor_start` is 0, not the original cursor position 2. -/
theorem C2_cursor_start_cex :
    (do_complete eng0 fs0 [] "a " 2).map CompleteReply.cursor_start = some 0 ∧
    (do_complete eng0 fs0 [] "a " 2).map CompleteReply.cursor_start ≠ some 2 := by
  constructor
  · rfl
  · decide

/-- C6: for every input whose trimmed form is `exit`, `quit`, or one of
them followed by `(`, `do_execute` invokes `do_shutdown` exactly once, with
restart=false (so the session ends closed), and returns an abort reply
carrying the entry execution counter. -/
theorem C6_exit_shutdown (outcome : EvalOutcome) (exists_code : String → Nat)
    (code : String) (silent store_history : Bool) (st : KernelState)
    (h : pystrip code = "exit" ∨ py_startswith "exit(" (pystrip code) = true ∨
         pystrip code = "quit" ∨ py_startswith "quit(" (pystrip code) = true) :
    (do_execute outcome exists_code code silent store_history st).1 =
      ExecuteReply.abort st.execution_count ∧
    ((do_execute outcome exists_code code silent store_history st).2.2.filterMap
      shutdown_flag) = [false] ∧
    (do_execute outcome exists_code code silent store_history st).2.1.session_alive
      = false := by
  have hne : pystrip code ≠ "" := by
    rcases h with h | h | h | h
    · rw [h]; decide
    · intro he; rw [he] at h; exact absurd h (by decide)
    · rw [h]; decide
    · intro he; rw [he] at h; exact absurd h (by decide)
  have hkb : pystrip code ≠ "keyboard" := by
    rcases h with h | h | h | h
    · rw [h]; decide
    · intro he; rw [he] at h; exact absurd h (by decide)
    · rw [h]; decide
    · intro he; rw [he] at h; exact absurd h (by decide)
  have hkbp : ¬ py_startswith "keyboard(" (pystrip code) = true := by
    rcases h with h | h | h | h
    · rw [h]; decide
    · intro hp; exact py_startswith_ne h hp 'e' 'k' (by decide) (by decide)
        (by decide)
    · rw [h]; decide
    · intro hp; exact py_startswith_ne h hp 'q' 'k' (by decide) (by decide)
        (by decide)
  have hguard1 : ¬ (pystrip code = "" ∨ pystrip code = "keyboard" ∨
      py_startswith "keyboard(" (pystrip code) = true) := by
    intro hc
    rcases hc with hc | hc | hc
    exacts [hne hc, hkb hc, hkbp hc]
  simp only [do_execute]
  rw [if_neg hguard1, if_pos h]
  refine ⟨?_, ?_, ?_⟩
  · split <;> rfl
  · rw [do_shutdown_filterMap_flag]
  · rw [do_shutdown_session]

/-- C6 witness: the concrete input `"exit"`. -/
theorem C6_exit_shutdown_witness :
    (do_execute (EvalOutcome.success none) (fun _ => 0) "exit" false true
        init_state).1 = ExecuteReply.abort 0 ∧
    ((do_execute (EvalOutcome.success none) (fun _ => 0) "exit" false true
        init_state).2.2.filterMap shutdown_flag) = [false] ∧
    (do_execute (EvalOutcome.success none) (fun _ => 0) "exit" false true
        init_state).2.1.session_alive = false :=
  C6_exit_shutdown _ _ _ _ _ _ (Or.inl (by decide))

/-- C4 counterexample to the claim as stated: in `"_,_"` both underscores
are standalone tokens, yet only the first is rewritten, because the match
of the first `_` consumes the separating comma. -/
theorem C4_overlap_cex :
    underscore_subst "_,_" = "last_kernel_value,_" ∧
    underscore_subst "_,_" ≠ "last_kernel_value,last_kernel_value" := by
  constructor
  · rfl
  · decide

/-- C8 counterexample to the claim as stated: with silent=true, an engine
error still streams its message to the standard-output channel. -/
theorem C8_silent_error_stream_cex :
    Event.stream "boom" ∈
      (do_execute (EvalOutcome.scilabError "boom") (fun _ => 0) "1+" true true
        init_state).2.2 := by
  decide

/-- C9 counterexample to the claim as stated: `do_execute "keyboard"` with
store_history=true appends to the command history before its early ok
return, so the history does change. -/
theorem C9_keyboard_history_cex :
    (do_execute (EvalOutcome.success none) (fun _ => 0) "keyboard" false true
        init_state).2.1.hist_cache = ["keyboard"] ∧
    (["keyboard"] : List String) ≠ [] := by
  constructor
  · rfl
  · decide

/-- C1 counterexample to the claim as stated: after 1001 executed commands
the in-memory history cache holds 1001 entries, exceeding the cap of 1000 —
no handler ever trims the cache. -/
theorem C1_cache_overflow_cex :
    max_hist_cache <
      (run_execs (EvalOutcome.success none) (fun _ => 0) false
        (List.replicate 1001 "x") init_state).hist_cache.length := by
  rw [run_execs_hist_cache (EvalOutcome.success none) (fun _ => 0) false
    (List.replicate 1001 "x") init_state
    (fun c hc => by rw [List.eq_of_mem_replicate hc]; decide)]
  rw [List.map_replicate]
  simp only [init_state, List.nil_append, List.length_replicate]
  decide

/-- C1 (amended): the in-memory history cache is unbounded — after `n`
non-empty executed commands it holds exactly `n` entries, which can exceed
the cap — while the history file written at shutdown holds exactly the
newline-join of the most recent `max_hist_cache` appended entries. -/
theorem C1_history_cap (outcome : EvalOutcome) (exists_code : String → Nat)
    (silent : Bool) (codes : List String)
    (h : ∀ c ∈ codes, pystrip c ≠ "") :
    (run_execs outcome exists_code silent codes init_state).hist_cache.length =
      codes.length ∧
    (do_shutdown false
        (run_execs outcome exists_code silent codes init_state)).2.1.hist_file =
      some (some (py_join_nl (py_last_slice max_hist_cache
        (codes.map pystrip)))) := by
  have hc := run_execs_hist_cache outcome exists_code silent codes init_state h
  have hf := run_execs_hist_file_isSome outcome exists_code silent codes init_state
  constructor
  · rw [hc]
    simp [init_state]
  · rcases ho : (run_execs outcome exists_code silent codes init_state).hist_file
      with _ | v
    · rw [ho] at hf
      exact absurd hf.symm (by simp [init_state])
    · simp only [do_shutdown, ho]
      rw [hc]
      simp [init_state]

/-- C1 witness: two commands, shutdown writes their newline-join. -/
theorem C1_history_cap_witness :
    (run_execs (EvalOutcome.success none) (fun _ => 0) false ["a", "b"]
      init_state).hist_cache.length = 2 ∧
    (do_shutdown false (run_execs (EvalOutcome.success none) (fun _ => 0) false
      ["a", "b"] init_state)).2.1.hist_file = some (some "a\nb") := by
  have h := C1_history_cap (EvalOutcome.success none) (fun _ => 0) false
    ["a", "b"] (by decide)
  exact ⟨h.1, by rw [h.2]; rfl⟩

/-- C9 (amended): for empty-trimmed or `keyboard`-form inputs `do_execute`
returns ok with the entry execution counter and performs no side effect
(no event at all), and the only state change is the history append itself:
a non-empty `keyboard` form is still recorded when store_history is set,
while an empty input (or store_history=false) leaves the state untouched. -/
theorem C9_noop_inputs (outcome : EvalOutcome) (exists_code : String → Nat)
    (code : String) (silent store_history : Bool) (st : KernelState)
    (h : pystrip code = "" ∨ pystrip code = "keyboard" ∨
         py_startswith "keyboard(" (pystrip code) = true) :
    (do_execute outcome exists_code code silent store_history st).1 =
      ExecuteReply.ok st.execution_count [] [] ∧
    (do_execute outcome exists_code code silent store_history st).2.2 = [] ∧
    (do_execute outcome exists_code code silent store_history st).2.1.execution_count
      = st.execution_count ∧
    (do_execute outcome exists_code code silent store_history st).2.1.hist_file
      = st.hist_file ∧
    (do_execute outcome exists_code code silent store_history st).2.1.session_alive
      = st.session_alive ∧
    (store_history = false →
      (do_execute outcome exists_code code silent store_history st).2.1 = st) ∧
    (pystrip code = "" →
      (do_execute outcome exists_code code silent store_history st).2.1 = st) ∧
    (store_history = true → pystrip code ≠ "" →
      (do_execute outcome exists_code code silent store_history st).2.1.hist_cache
        = st.hist_cache ++ [pystrip code]) := by
  simp only [do_execute]
  rw [if_pos h]
  refine ⟨?_, rfl, ?_, ?_, ?_, ?_, ?_, ?_⟩
  · split <;> rfl
  · split <;> rfl
  · split <;> rfl
  · split <;> rfl
  · intro hsf
    split
    · next hcond => rw [hsf] at hcond; exact absurd hcond.2 (by decide)
    · rfl
  · intro h0
    split
    · next hcond => exact absurd h0 hcond.1
    · rfl
  · intro hst hne
    split
    · rfl
    · next hcond => exact absurd ⟨hne, hst⟩ hcond

/-- C9 witness: the concrete input `"keyboard"` with history recording on. -/
theorem C9_noop_inputs_witness :
    (do_execute (EvalOutcome.success none) (fun _ => 0) "keyboard" false true
      init_state).1 = ExecuteReply.ok 0 [] [] ∧
    (do_execute (EvalOutcome.success none) (fun _ => 0) "keyboard" false true
      init_state).2.2 = [] := by
  have h := C9_noop_inputs (EvalOutcome.success none) (fun _ => 0) "keyboard"
    false true init_state (Or.inr (Or.inl (by decide)))
  exact ⟨h.1, h.2.1⟩

/-- C8 (amended): for inputs that reach engine evaluation, the textual
result of a successful evaluation is streamed exactly when silent mode is
off — but error text is streamed unconditionally, because `_handle_error`
never consults the silent flag. -/
theorem C8_stream_visibility (exists_code : String → Nat) (code : String)
    (store_history : Bool) (st : KernelState)
    (h : reaches_eval (pystrip code) = true) :
    (∀ out : Option String,
      (∀ s, Event.stream s ∉
        (do_execute (EvalOutcome.success out) exists_code code true
          store_history st).2.2) ∧
      Event.stream (out.getD "") ∈
        (do_execute (EvalOutcome.success out) exists_code code false
          store_history st).2.2) ∧
    (∀ (e : String) (silent : Bool),
      Event.stream (pystrip (classify_error e)) ∈
        (do_execute (EvalOutcome.scilabError e) exists_code code silent
          store_history st).2.2) := by
  simp only [reaches_eval, decide_eq_true_eq] at h
  obtain ⟨h1, h2, h3, h4, h5, h6, h7, h8, h9, h10, h11⟩ := h
  have g1 : ¬ (pystrip code = "" ∨ pystrip code = "keyboard" ∨
      py_startswith "keyboard(" (pystrip code) = true) := by
    intro hc; rcases hc with hc | hc | hc
    exacts [h1 hc, h2 hc, h3 hc]
  have g2 : ¬ (pystrip code = "exit" ∨ py_startswith "exit(" (pystrip code) = true ∨
      pystrip code = "quit" ∨ py_startswith "quit(" (pystrip code) = true) := by
    intro hc; rcases hc with hc | hc | hc | hc
    exacts [h4 hc, h5 hc, h6 hc, h7 hc]
  have g3 : ¬ (pystrip code = "restart" ∨
      py_startswith "restart(" (pystrip code) = true) := by
    intro hc; rcases hc with hc | hc
    exacts [h8 hc, h9 hc]
  have g4 : ¬ (py_endswith "?" (pystrip code) = true ∨
      py_startswith "?" (pystrip code) = true) := by
    intro hc; rcases hc with hc | hc
    exacts [h10 hc, h11 hc]
  constructor
  · intro out
    constructor
    · intro s
      simp only [do_execute]
      rw [if_neg g1, if_neg g2, if_neg g3, if_neg g4]
      cases out with
      | none => split <;> simp [handle_output]
      | some v => split <;> simp [handle_output]
    · simp only [do_execute]
      rw [if_neg g1, if_neg g2, if_neg g3, if_neg g4]
      cases out with
      | none => split <;> simp [handle_output]
      | some v => split <;> simp [handle_output]
  · intro e silent
    simp only [do_execute]
    rw [if_neg g1, if_neg g2, if_neg g3, if_neg g4]
    simp [handle_error]

/-- C8 witness: a concrete engine error streamed with silent off. -/
theorem C8_stream_visibility_witness :
    Event.stream (pystrip (classify_error "boom")) ∈
      (do_execute (EvalOutcome.scilabError "boom") (fun _ => 0) "1+2" false
        true init_state).2.2 :=
  (C8_stream_visibility (fun _ => 0) "1+2" true init_state (by decide)).2
    "boom" false

/-! ### Substring search: the executable scan against its declarative spec -/

theorem findSubIdx_isSome_iff (m : List Char) :
    ∀ l : List Char, (findSubIdx m l).isSome = true ↔ ∃ a b, l = a ++ m ++ b := by
  intro l
  induction l with
  | nil =>
    simp only [findSubIdx]
    constructor
    · intro h
      split at h
      · next hm => exact ⟨[], [], by simp [hm]⟩
      · simp at h
    · rintro ⟨a, b, hab⟩
      have hm : m = [] := by
        rcases List.append_eq_nil.mp hab.symm with ⟨h1, -⟩
        exact (List.append_eq_nil.mp h1).2
      rw [if_pos hm]
      rfl
  | cons c rest ih =>
    simp only [findSubIdx]
    constructor
    · intro h
      split at h
      · next hp =>
        rw [List.isPrefixOf_iff_prefix] at hp
        obtain ⟨t, ht⟩ := hp
        exact ⟨[], t, by simp [← ht]⟩
      · next hp =>
        rw [Option.isSome_map'] at h
        obtain ⟨a, b, hab⟩ := ih.mp h
        exact ⟨c :: a, b, by simp [hab]⟩
    · rintro ⟨a, b, hab⟩
      by_cases hp : m.isPrefixOf (c :: rest) = true
      · rw [if_pos hp]; rfl
      · rw [if_neg hp, Option.isSome_map']
        cases a with
        | nil =>
          exfalso
          apply hp
          rw [List.isPrefixOf_iff_prefix]
          exact ⟨b, by simpa using hab.symm⟩
        | cons a0 a1 =>
          simp only [List.cons_append] at hab
          rw [ih]
          exact ⟨a1, b, (List.cons.injEq _ _ _ _ ▸ hab).2⟩

theorem findSubIdx_eq_first (m : List Char) :
    ∀ (l : List Char) (i : Nat),
      m.isPrefixOf (l.drop i) = true →
      (∀ j, j < i → ¬ m.isPrefixOf (l.drop j) = true) →
      findSubIdx m l = some i := by
  intro l
  induction l with
  | nil =>
    intro i hp hmin
    rw [List.drop_nil] at hp
    have hm : m = [] := by
      rw [List.isPrefixOf_iff_prefix] at hp
      obtain ⟨t, ht⟩ := hp
      exact (List.append_eq_nil.mp ht).1
    have hi : i = 0 := by
      by_contra hne
      exact hmin 0 (Nat.pos_of_ne_zero hne) (by rw [List.drop_nil]; exact hp)
    rw [hm, hi]
    rfl
  | cons c rest ih =>
    intro i hp hmin
    cases i with
    | zero =>
      rw [List.drop_zero] at hp
      simp [findSubIdx, hp]
    | succ n =>
      have h0 : ¬ m.isPrefixOf (c :: rest) = true := by
        have := hmin 0 (Nat.succ_pos n)
        simpa using this
      simp only [findSubIdx, if_neg h0]
      rw [ih n (by simpa using hp)
        (fun j hj => by simpa using hmin (j + 1) (Nat.succ_lt_succ hj))]
      rfl

theorem py_contains_iff (m s : String) :
    py_contains m s = true ↔ ∃ a b, s.data = a ++ m.data ++ b := by
  unfold py_contains
  exact findSubIdx_isSome_iff m.data s.data

/-- C3 (amended): `_handle_error` builds an error reply with empty `ename`
and empty traceback whose value field is the classified message, and
streams the classified message stripped of surrounding whitespace.  The
classification follows the stated priority order (any substring occurrence,
characterised declaratively): a parse-error marker yields "Parse Error";
otherwise the text after the first "Scilab returned:" marker with leading
whitespace removed; otherwise a syntax-error marker yields "Syntax Error";
otherwise the raw message — kept verbatim in the value field, NOT trimmed
(only the streamed copy is trimmed). -/
theorem C3_error_classification (n : Nat) (err : String) :
    (handle_error n err).1 =
      ExecuteReply.err n "" (classify_error err) [] ∧
    (handle_error n err).2 = [Event.stream (pystrip (classify_error err))] ∧
    (py_contains "parse error:" err = true ↔
      ∃ a b, err.data = a ++ ("parse error:" : String).data ++ b) ∧
    (py_contains "parse error:" err = true →
      classify_error err = "Parse Error") ∧
    (py_contains "parse error:" err = false →
      ∀ a b, err.data = a ++ ("Scilab returned:" : String).data ++ b →
        (∀ a2 b2, err.data = a2 ++ ("Scilab returned:" : String).data ++ b2 →
          a.length ≤ a2.length) →
        classify_error err = ⟨b.dropWhile isPySpace⟩) ∧
    (py_contains "parse error:" err = false →
      py_contains "Scilab returned:" err = false →
      py_contains "Syntax Error" err = true →
      classify_error err = "Syntax Error") ∧
    (py_contains "parse error:" err = false →
      py_contains "Scilab returned:" err = false →
      py_contains "Syntax Error" err = false →
      classify_error err = err) := by
  refine ⟨rfl, rfl, py_contains_iff _ _, ?_, ?_, ?_, ?_⟩
  · intro hp
    simp [classify_error, hp]
  · intro hp a b hab hmin
    have hcont : py_contains "Scilab returned:" err = true := by
      rw [py_contains_iff]
      exact ⟨a, b, hab⟩
    have hidx : findSubIdx ("Scilab returned:" : String).data err.data =
        some a.length := by
      apply findSubIdx_eq_first
      · rw [hab, List.append_assoc, List.drop_left,
          List.isPrefixOf_iff_prefix]
        exact ⟨b, rfl⟩
      · intro j hj hpre
        rw [List.isPrefixOf_iff_prefix] at hpre
        obtain ⟨t, ht⟩ := hpre
        have hdec : err.data = err.data.take j ++
            ("Scilab returned:" : String).data ++ t := by
          conv_lhs => rw [← List.take_append_drop j err.data, ← ht]
          rw [List.append_assoc]
        have hle : a.length ≤ (err.data.take j).length :=
          hmin (err.data.take j) t hdec
        have : (err.data.take j).length ≤ j := by
          rw [List.length_take]
          exact Nat.min_le_left _ _
        omega
    simp only [classify_error, hp, Bool.false_eq_true, if_false, hcont,
      if_true]
    congr 1
    rw [py_index, hidx, Option.getD_some, hab, List.append_assoc,
      List.drop_left]
    rw [show ("Scilab returned:" : String).length =
      ("Scilab returned:" : String).data.length from rfl, List.drop_left]
  · intro hp hs hsx
    simp [classify_error, hp, hs, hsx]
  · intro hp hs hsx
    simp [classify_error, hp, hs, hsx]

/-- C3 witness: the spec's own example marker string, and a fallthrough
message that keeps its surrounding whitespace in the value field. -/
theorem C3_error_classification_witness :
    classify_error "Scilab returned: Foo bar" = "Foo bar" ∧
    classify_error " foo " = " foo " := by
  constructor
  · have h := (C3_error_classification 0 "Scilab returned: Foo bar").2.2.2.2.1
      (by decide) [] (" Foo bar" : String).data (by decide)
      (fun a2 b2 _ => Nat.zero_le _)
    rw [h]
    rfl
  · have h := (C3_error_classification 0 " foo ").2.2.2.2.2.2
      (by decide) (by decide) (by decide)
    exact h

/-- C3 counterexample to the claim as stated: for the marker-free message
`" foo "` the reply's value field keeps the raw untrimmed text, not the
trimmed canonical form the claim requires (only the stream is trimmed). -/
theorem C3_untrimmed_value_cex :
    (handle_error 0 " foo ").1 =
      ExecuteReply.err 0 "" " foo " [] ∧
    (" foo " : String) ≠ "foo" ∧
    (handle_error 0 " foo ").2 = [Event.stream "foo"] := by
  refine ⟨rfl, by decide, rfl⟩

/-! ### Round-trip behaviour of history persistence -/

theorem readlinesL_no_nl {l : List Char} (h0 : l ≠ []) (h : '\n' ∉ l) :
    readlinesL l = [l] := by
  induction l with
  | nil => exact absurd rfl h0
  | cons c cs ih =>
    have hc : ¬ c = '\n' := fun he => h (he ▸ List.mem_cons_self c cs)
    simp only [readlinesL]
    rw [if_neg hc]
    cases cs with
    | nil => rfl
    | cons d ds =>
      rw [ih (by simp) (fun hm => h (List.mem_cons_of_mem c hm))]

theorem readlinesL_append_nl {a : List Char} (rest : List Char)
    (h : '\n' ∉ a) :
    readlinesL (a ++ '\n' :: rest) = (a ++ ['\n']) :: readlinesL rest := by
  induction a with
  | nil => simp [readlinesL]
  | cons c a' ih =>
    have hc : ¬ c = '\n' := fun he => h (he ▸ List.mem_cons_self _ _)
    have hsplit : (c :: a') ++ '\n' :: rest = c :: (a' ++ '\n' :: rest) := rfl
    rw [hsplit]
    simp only [readlinesL]
    rw [if_neg hc, ih (fun hm => h (List.mem_cons_of_mem c hm))]
    simp

theorem readlinesL_join (ls : List String)
    (h : ∀ e ∈ ls, e.data ≠ [] ∧ '\n' ∉ e.data) :
    (readlinesL (py_join_nl_L ls)).map
        (fun l => if l.getLast? = some '\n' then l.dropLast else l) =
      ls.map String.data ∧
    (readlinesL (py_join_nl_L ls)).length = ls.length := by
  induction ls with
  | nil => exact ⟨rfl, rfl⟩
  | cons a ls' ih =>
    cases ls' with
    | nil =>
      obtain ⟨ha0, ha1⟩ := h a (List.mem_cons_self a [])
      simp only [py_join_nl_L]
      rw [readlinesL_no_nl ha0 ha1]
      have hlast : ¬ a.data.getLast? = some '\n' := by
        intro hl
        exact ha1 (List.mem_of_getLast?_eq_some hl)
      simp [hlast]
    | cons b ls'' =>
      obtain ⟨ha0, ha1⟩ := h a (List.mem_cons_self _ _)
      have hrest : ∀ e ∈ b :: ls'', e.data ≠ [] ∧ '\n' ∉ e.data :=
        fun e he => h e (List.mem_cons_of_mem a he)
      obtain ⟨ih1, ih2⟩ := ih hrest
      simp only [py_join_nl_L]
      rw [readlinesL_append_nl _ ha1]
      constructor
      · simp only [List.map_cons]
        rw [List.getLast?_concat, if_pos rfl, List.dropLast_concat, ih1]
        rfl
      · simp only [List.length_cons]
        rw [ih2]
        rfl

theorem strip_trailing_nl_mk (l : List Char) :
    strip_trailing_nl ⟨l⟩ =
      ⟨if l.getLast? = some '\n' then l.dropLast else l⟩ := by
  unfold strip_trailing_nl
  split
  · rfl
  · rfl

/-- C7 (amended): persisting the history cache through `do_shutdown` and
reading it back with `do_history` in a fresh session yields the same
ordered command sequence only up to the newline terminators that
`readlines` keeps: stripping one trailing newline from each returned line
recovers the cache exactly, provided every entry is non-empty and free of
embedded newlines and the cache is within the cap. -/
theorem C7_history_roundtrip (cache : List String)
    (h1 : ∀ e ∈ cache, e.data ≠ [] ∧ '\n' ∉ e.data)
    (h2 : cache.length ≤ max_hist_cache) :
    ((do_history
      { execution_count := 0, hist_cache := [],
        hist_file := (do_shutdown false
          { execution_count := 0, hist_cache := cache,
            hist_file := some none, session_alive := true }).2.1.hist_file,
        session_alive := true }).1.history.map
        (fun t => strip_trailing_nl t.2.2)) = cache ∧
    (do_history
      { execution_count := 0, hist_cache := [],
        hist_file := (do_shutdown false
          { execution_count := 0, hist_cache := cache,
            hist_file := some none, session_alive := true }).2.1.hist_file,
        session_alive := true }).2.hist_cache.map strip_trailing_nl = cache := by
  have hslice : py_last_slice max_hist_cache cache = cache := by
    unfold py_last_slice
    rw [Nat.sub_eq_zero_of_le h2, List.drop_zero]
  have hfile : (do_shutdown false
      { execution_count := 0, hist_cache := cache,
        hist_file := some none, session_alive := true }).2.1.hist_file =
      some (some (py_join_nl cache)) := by
    simp [do_shutdown, hslice]
  rw [hfile]
  obtain ⟨hm, hl⟩ := readlinesL_join cache h1
  have hlines : readlines (py_join_nl cache) =
      (readlinesL (py_join_nl_L cache)).map (fun l => (⟨l⟩ : String)) := rfl
  have hlen : (readlines (py_join_nl cache)).length = cache.length := by
    rw [hlines, List.length_map, hl]
  have htake : (readlines (py_join_nl cache)).take max_hist_cache =
      readlines (py_join_nl cache) :=
    List.take_of_length_le (by rw [hlen]; exact h2)
  have hstrip : (readlines (py_join_nl cache)).map strip_trailing_nl = cache := by
    rw [hlines, List.map_map]
    have e1 : (strip_trailing_nl ∘ fun l => (⟨l⟩ : String)) =
        ((fun l => (⟨l⟩ : String)) ∘
          (fun l : List Char =>
            if l.getLast? = some '\n' then l.dropLast else l)) := by
      funext l
      exact strip_trailing_nl_mk l
    rw [e1, ← List.map_map, hm, List.map_map]
    have e2 : ((fun l => (⟨l⟩ : String)) ∘ String.data) = id := by
      funext s
      cases s
      rfl
    rw [e2, List.map_id]
  constructor
  · simp only [do_history]
    rw [htake, List.map_map]
    have e3 : ((fun t : Option Nat × Option Nat × String =>
        strip_trailing_nl t.2.2) ∘ fun h => ((none : Option Nat),
          (none : Option Nat), h)) = strip_trailing_nl := by
      funext s
      rfl
    rw [e3, hstrip]
  · simp only [do_history]
    rw [htake, hstrip]

/-- C7 witness: round-tripping the two-entry cache `["a", "b"]` and
stripping the newline terminators recovers it. -/
theorem C7_history_roundtrip_witness :
    ((do_history
      { execution_count := 0, hist_cache := [],
        hist_file := (do_shutdown false
          { execution_count := 0, hist_cache := ["a", "b"],
            hist_file := some none, session_alive := true }).2.1.hist_file,
        session_alive := true }).1.history.map
        (fun t => strip_trailing_nl t.2.2)) = ["a", "b"] :=
  (C7_history_roundtrip ["a", "b"] (by decide) (by decide)).1

/-- C7 counterexample to the claim as stated: the lines read back are
`"a\n"` and `"b"`, not the original `"a"` and `"b"` — `readlines` keeps the
newline terminators, so the round-trip is not the identity. -/
theorem C7_newline_terminators_cex :
    (do_history
      { execution_count := 0, hist_cache := [],
        hist_file := (do_shutdown false
          { execution_count := 0, hist_cache := ["a", "b"],
            hist_file := some none, session_alive := true }).2.1.hist_file,
        session_alive := true }).1.history =
      [(none, none, "a\n"), (none, none, "b")] ∧
    ("a\n" : String) ≠ "a" := by
  constructor
  · rfl
  · decide

/-! ### Word-boundary behaviour of the underscore substitution -/

theorem fillUnd_cons (delim : Bool) (c : Char) (rest : List Char) :
    fillUnd delim (c :: rest) =
      if c = '_' ∧ delim ∧ ((rest.head?.map isWordChar).getD false) = false then
        match rest with
        | [] => last_kernel_value_L
        | b :: rest2 => last_kernel_value_L ++ b :: fillUnd false rest2
      else c :: fillUnd (!isWordChar c) rest := by
  cases rest <;> rfl

theorem fillUnd_id_of_noLone :
    ∀ (l : List Char) (prevW : Bool), noLoneUnd prevW l = true →
      fillUnd (!prevW) l = l := by
  intro l
  induction l with
  | nil => intro prevW _; rfl
  | cons c rest ih =>
    intro prevW h
    simp only [noLoneUnd] at h
    by_cases hc : c = '_'
    · rw [if_pos hc, Bool.and_eq_true] at h
      obtain ⟨h1, h2⟩ := h
      rw [fillUnd_cons]
      have hcond : ¬ (c = '_' ∧ (!prevW) = true ∧
          ((rest.head?.map isWordChar).getD false) = false) := by
        rintro ⟨-, hd, hh⟩
        rw [Bool.not_eq_true'] at hd
        rw [hd, Bool.false_or] at h1
        rw [h1] at hh
        exact absurd hh (by decide)
      rw [if_neg hcond]
      subst hc
      have h3 : fillUnd false rest = rest := ih true h2
      have h4 : (!isWordChar '_') = false := by decide
      rw [h4, h3]
    · rw [if_neg hc] at h
      rw [fillUnd_cons]
      have hcond : ¬ (c = '_' ∧ (!prevW) = true ∧
          ((rest.head?.map isWordChar).getD false) = false) :=
        fun hx => hc hx.1
      rw [if_neg hcond, ih (isWordChar c) h]

/-- C4 (amended): the substitution never rewrites an `_` adjacent to a word
character (any input whose every underscore has a word-character neighbour,
such as `x_y`, is left unchanged), and a standalone `_` token such as the
one in `a = _ + 1` is rewritten to `last_kernel_value` before the code is
submitted for evaluation; however, the rewriting of a standalone `_` is
limited by the non-overlapping regex scan: the non-word character following
a replaced `_` is consumed, so of two standalone underscores sharing one
separator (as in `_,_`) only the first is rewritten. -/
theorem C4_underscore_subst (st : KernelState) :
    (∀ code : String, noLoneUnd false code.data = true →
      underscore_subst code = code) ∧
    underscore_subst "a = _ + 1" = "a = last_kernel_value + 1" ∧
    noLoneUnd false ("x_y" : String).data = true ∧
    underscore_subst "x_y" = "x_y" ∧
    (∀ (outcome : EvalOutcome) (exists_code : String → Nat)
        (silent store_history : Bool),
      (do_execute outcome exists_code "a = _ + 1" silent store_history
        st).2.2.head? = some (Event.evalReq "a = last_kernel_value + 1")) := by
  refine ⟨?_, by rfl, by decide, by rfl, ?_⟩
  · intro code h
    unfold underscore_subst
    split
    · have h3 : fillUnd true code.data = code.data :=
        fillUnd_id_of_noLone code.data false h
      rw [h3]
    · rfl
  · intro outcome exists_code silent store_history
    simp only [do_execute]
    rw [if_neg (by decide), if_neg (by decide), if_neg (by decide),
      if_neg (by decide)]
    cases outcome with
    | success out => split <;> split <;> rfl
    | keyboardInterrupt => rfl
    | scilabError e => rfl
    | otherError => rfl

/-- C4 witness: an input with only identifier-internal underscores is left
unchanged, and the rewritten form of `a = _ + 1` is what reaches the
engine. -/
theorem C4_underscore_subst_witness :
    underscore_subst "ab_cd" = "ab_cd" ∧
    (do_execute (EvalOutcome.success none) (fun _ => 0) "a = _ + 1" false true
      init_state).2.2.head? =
        some (Event.evalReq "a = last_kernel_value + 1") := by
  have h := C4_underscore_subst init_state
  exact ⟨h.1 "ab_cd" (by decide),
    h.2.2.2.2 (EvalOutcome.success none) (fun _ => 0) false true⟩
